import Mathlib

/-!
Verification of the arithmetic-interpreter core (lexer / parser / interpreter /
location-carrying error machinery).  The error and diagnostic machinery is
translated from `src/error.rs`; the supporting data model (`Loc`, `Annot`,
`TokenKind`, `LexError`, `ParseError`) and the lexer, parser and interpreter
are modelled from the specification, since their source files are not part of
the sources at hand (only `error.rs` and `main.rs` are).
-/

namespace LLParser

/-- Modelled from the spec: `Loc` from the absent `lexer.rs` — "an ordered pair
(start, end) of byte offsets into the original input"; `error.rs` accesses the
two components as `loc.0` and `loc.1` (a Rust tuple struct `Loc(usize, usize)`). -/
structure Loc where
  fst : Nat
  snd : Nat
  deriving Repr, DecidableEq

/-- Modelled from the spec: `Annot<T>` from the absent `lexer.rs` — "a value of
type T paired with a Location"; `error.rs` accesses the fields as `.value` and
`.loc`. -/
structure Annot (α : Type) where
  value : α
  loc : Loc
  deriving Repr, DecidableEq

/-- Modelled from the spec: `TokenKind` from the absent `lexer.rs` — "a closed
tagged variant — Number(unsigned integer literal), Plus, Minus, Asterisk,
Slash, LParen, RParen"; the variant names are those matched in `error.rs`. -/
inductive TokenKind where
  | Number (n : Nat)
  | Plus
  | Minus
  | Asterisk
  | Slash
  | LParen
  | RParen
  deriving Repr, DecidableEq

/-- A Token is `Annot<TokenKind>` (spec §3). -/
def Token := Annot TokenKind
  deriving Repr, DecidableEq

/-- Modelled from the spec: `LexErrorKind` from the absent `lexer.rs` —
"{InvalidChar(character), UnexpectedEndOfInput}"; `error.rs` names the second
variant `Eof`. -/
inductive LexErrorKind where
  | InvalidChar (c : Char)
  | Eof
  deriving Repr, DecidableEq

/-- `LexError` is `Annot<LexErrorKind>` (spec §3, and `error.rs` reads both
`.loc` and `.value` of a `LexError`). -/
def LexError := Annot LexErrorKind
  deriving Repr, DecidableEq

/-- Modelled from the spec: `ParseError` from the absent `parser.rs` — "a
closed tagged variant — UnexpectedToken(token), NotExpression(token),
NotOperator(token), UnclosedOpenParen(token), RedundantExpression(token),
UnexpectedEndOfInput"; `error.rs` names the last variant `Eof`. -/
inductive ParseError where
  | UnexpectedToken (t : Token)
  | NotExpression (t : Token)
  | NotOperator (t : Token)
  | UnclosedOpenParen (t : Token)
  | RedundantExpression (t : Token)
  | Eof
  deriving Repr, DecidableEq

/-- `enum Error { Lexer(LexError), Parser(ParseError) }` — `error.rs` lines 4–8. -/
inductive Error where
  | Lexer (e : LexError)
  | Parser (e : ParseError)
  deriving Repr, DecidableEq

/-- `impl From<LexError> for Error` — `error.rs` lines 10–14. -/
def Error.fromLexError (e : LexError) : Error := Error.Lexer e

/-- `impl From<ParseError> for Error` — `error.rs` lines 16–20. -/
def Error.fromParseError (e : ParseError) : Error := Error.Parser e

/-- `impl fmt::Display for TokenKind` — `error.rs` lines 23–36. -/
def TokenKind.display : TokenKind → String
  | .Number n => toString n
  | .Plus => "+"
  | .Minus => "-"
  | .Asterisk => "*"
  | .Slash => "/"
  | .LParen => "("
  | .RParen => ")"

/-- `impl fmt::Display for Loc` — `error.rs` lines 38–42: `"{}-{}"`. -/
def Loc.display (l : Loc) : String := toString l.fst ++ "-" ++ toString l.snd

/-- `impl fmt::Display for LexError` — `error.rs` lines 44–53. -/
def LexError.display (e : LexError) : String :=
  match e.value with
  | .InvalidChar c => e.loc.display ++ ": invalid char '" ++ String.singleton c ++ "'"
  | .Eof => "End of file"

/-- `impl fmt::Display for ParseError` — `error.rs` lines 55–75. -/
def ParseError.display : ParseError → String
  | .UnexpectedToken tok =>
      tok.loc.display ++ ": " ++ tok.value.display ++ " is not expected"
  | .NotExpression tok =>
      tok.loc.display ++ ": '" ++ tok.value.display ++ "' is not a start of expression"
  | .NotOperator tok =>
      tok.loc.display ++ ": '" ++ tok.value.display ++ "' is not an operator"
  | .UnclosedOpenParen tok =>
      tok.loc.display ++ ": '" ++ tok.value.display ++ "' is not closed"
  | .RedundantExpression tok =>
      tok.loc.display ++ ": expression after '" ++ tok.value.display ++ "' is redundant"
  | .Eof => "End of file"

/-- `impl fmt::Display for Error` — `error.rs` lines 77–81: the composite
error always renders as the constant string `"parser error"`. -/
def Error.display (_ : Error) : String := "parser error"

/-- `impl StdError for Error { fn source(&self) ... }` — `error.rs` lines
86–94: the cause accessor returns the wrapped lexer or parser error.  (The
`StdError` impls for `LexError` and `ParseError` keep the default `source`,
which returns `None`.) -/
def Error.source : Error → Option (LexError ⊕ ParseError)
  | .Lexer lex => some (Sum.inl lex)
  | .Parser parse => some (Sum.inr parse)

/-- A `&dyn StdError` value as `show_trace` observes it: its `Display`
rendering plus its (already chain-walked) `source`.  The Rust trait has a
dynamic `source` link; here the chain is materialised as a finite structure,
which is exact because every `source` chain in this program is finite. -/
inductive DynErr where
  | mk (msg : String) (src : Option DynErr)

/-- The `Display` string of a `DynErr`. -/
def DynErr.msg : DynErr → String
  | .mk m _ => m

/-- The `source()` link of a `DynErr`. -/
def DynErr.src : DynErr → Option DynErr
  | .mk _ s => s

/-- `impl StdError for LexError {}` — `error.rs` line 84: the default
`source` returns `None`, so a `LexError` as a `dyn StdError` is its `Display`
string with no cause. -/
def LexError.toDyn (e : LexError) : DynErr := .mk e.display none

/-- `impl StdError for ParseError {}` — `error.rs` line 85: default `source`,
no cause. -/
def ParseError.toDyn (e : ParseError) : DynErr := .mk e.display none

/-- `Error` as a `dyn StdError`: `Display` is the constant `"parser error"`
(`error.rs` lines 77–81) and `source` is the wrapped error (`error.rs` lines
86–94). -/
def Error.toDyn (e : Error) : DynErr :=
  .mk e.display (match e.source with
    | some (Sum.inl lex) => some lex.toDyn
    | some (Sum.inr parse) => some parse.toDyn
    | none => none)

/-- The loop body of `show_trace` — `error.rs` lines 126–130: walk the
`source` chain, printing each cause prefixed with `"caused by "`. -/
def showTraceCauses : Option DynErr → List String
  | none => []
  | some (.mk m s) => ("caused by " ++ m) :: showTraceCauses s

/-- `pub fn show_trace<E: StdError>(e: E)` — `error.rs` lines 124–131,
modelled as the list of printed lines: the error's own message, then the
`"caused by"` lines of its `source` chain. -/
def show_trace (e : DynErr) : List String := e.msg :: showTraceCauses e.src

/-- All messages reachable along the `source` chain of a `DynErr`,
declaratively (the chain itself, not the printing loop). -/
def DynErr.causeChain : DynErr → List String
  | .mk _ none => []
  | .mk _ (some e) => e.msg :: e.causeChain

/-- `fn print_annot(input: &str, loc: Loc)` — `error.rs` lines 96–99,
modelled as the list of printed lines: the input, then `loc.0` spaces
followed by `loc.1 - loc.0` carets.  `str::repeat` is modelled by
`strRepeat`. -/
def strRepeat (s : String) : Nat → String
  | 0 => ""
  | n + 1 => s ++ strRepeat s n

def print_annot (input : String) (loc : Loc) : List String :=
  [input, strRepeat " " loc.fst ++ strRepeat "^" (loc.snd - loc.fst)]

/-- The `Loc` that `Error::show_diagnostic` reports — the `match` of
`error.rs` lines 105–117.  `input.len()` is the byte length of the input,
modelled by `String.utf8ByteSize`. -/
def Error.diagnosticLoc (e : Error) (input : String) : Loc :=
  match e with
  | .Lexer lex => lex.loc
  | .Parser parse =>
    match parse with
    | .UnexpectedToken t => t.loc
    | .NotExpression t => t.loc
    | .NotOperator t => t.loc
    | .UnclosedOpenParen t => t.loc
    | .RedundantExpression t => Loc.mk t.loc.fst input.utf8ByteSize
    | .Eof => Loc.mk input.utf8ByteSize (input.utf8ByteSize + 1)

/-- The message that `Error::show_diagnostic` prints first — `error.rs` line
119 prints the inner `&dyn StdError` bound at lines 106/107, i.e. the wrapped
lexer or parser error's `Display`, not the composite `Error`'s. -/
def Error.diagnosticMsg (e : Error) : String :=
  match e with
  | .Lexer lex => lex.display
  | .Parser parse => parse.display

/-- `Error::show_diagnostic` — `error.rs` lines 101–121, modelled as the list
of printed lines: the wrapped error's message, then `print_annot` of the
per-variant location. -/
def Error.show_diagnostic (e : Error) (input : String) : List String :=
  e.diagnosticMsg :: print_annot input (e.diagnosticLoc input)

/-! ### Lexer, parser and interpreter, modelled from the spec

The source files `lexer.rs` and `parser.rs` (and the interpreter) are not
among the sources at hand; only their data types are echoed in `error.rs`.
The definitions below are modelled from spec §4.1–§4.3. -/

/-- Modelled from the spec: the value of a digit character, used to fold a
greedily consumed digit run into its numeric value (§4.1). -/
def digitsToNat (ds : List Char) : Nat :=
  ds.foldl (fun acc c => acc * 10 + (c.toNat - 48)) 0

/-- Modelled from the spec: the scanning loop of `lex` (§4.1), over the list
of input characters with the current byte offset.  ASCII whitespace is
skipped; a digit run is greedily consumed into one `Number` token; the six
single characters map one-to-one to their kinds; any other character fails at
once with `InvalidChar` spanning exactly that character.  A `fuel` counter
makes the recursion structural; each step consumes at least one character, so
`lex` supplies enough fuel that the `fuel = 0` case (rendered as the spec's
mid-lexeme `UnexpectedEndOfInput`, unreachable in this grammar) never fires. -/
def lexGo : Nat → List Char → Nat → Except LexError (List Token)
  | 0, _, pos => .error (Annot.mk LexErrorKind.Eof (Loc.mk pos (pos + 1)))
  | _ + 1, [], _ => .ok []
  | f + 1, c :: cs, pos =>
    if c = ' ' ∨ c = '\t' ∨ c = '\n' ∨ c = '\r' then
      lexGo f cs (pos + 1)
    else if c.isDigit then
      let ds := List.takeWhile Char.isDigit (c :: cs)
      match lexGo f (List.drop ds.length (c :: cs)) (pos + ds.length) with
      | .error e => .error e
      | .ok toks =>
          .ok (Annot.mk (TokenKind.Number (digitsToNat ds)) (Loc.mk pos (pos + ds.length)) :: toks)
    else
      let single : TokenKind → Except LexError (List Token) := fun k =>
        match lexGo f cs (pos + 1) with
        | .error e => .error e
        | .ok toks => .ok (Annot.mk k (Loc.mk pos (pos + 1)) :: toks)
      if c = '+' then single .Plus
      else if c = '-' then single .Minus
      else if c = '*' then single .Asterisk
      else if c = '/' then single .Slash
      else if c = '(' then single .LParen
      else if c = ')' then single .RParen
      else .error (Annot.mk (LexErrorKind.InvalidChar c) (Loc.mk pos (pos + 1)))

/-- Modelled from the spec: `lex(input: text) -> Result<sequence of Token,
LexError>` (§4.1), scanning left to right from offset 0. -/
def lex (input : String) : Except LexError (List Token) :=
  lexGo (input.data.length + 1) input.data 0

/-- Modelled from the spec: the binary operators of the expression tree —
"Operators: Add, Sub, Mul, Div" (§3). -/
inductive BinOpKind where
  | Add
  | Sub
  | Mul
  | Div
  deriving Repr, DecidableEq

/-- Modelled from the spec: the expression tree node (§3) — "a closed tagged
variant over {Number literal, Unary-minus(sub-expression),
Binary-op(operator, left, right)}, each node carrying its own Location". -/
inductive Ast where
  | Num (n : Nat) (loc : Loc)
  | UniMinus (e : Ast) (loc : Loc)
  | BinOp (op : BinOpKind) (l : Ast) (r : Ast) (loc : Loc)
  deriving Repr, DecidableEq

/-- The `Location` carried by an expression tree node. -/
def Ast.loc : Ast → Loc
  | .Num _ l => l
  | .UniMinus _ l => l
  | .BinOp _ _ _ l => l

/-! Modelled from the spec: the recursive-descent parser (§4.2).  Each rule
returns the parsed sub-expression together with the unconsumed tokens.  The
mutual recursion descends through
`expr := addsub`, `addsub := muldiv (('+'|'-') muldiv)*`,
`muldiv := unary (('*'|'/') unary)*`, `unary := '-' unary | primary`,
`primary := Number | '(' expr ')'`; the two `*` loops fold left-to-right into
a left-leaning tree whose node Location spans from the left boundary of the
left operand to the right boundary of the right operand.  A `fuel` counter
makes the recursion structurally terminating; `parse` supplies more fuel than
any run can consume, so the `fuel = 0` case is never reached from `parse`. -/
mutual

def parseAddsub : Nat → List Token → Except ParseError (Ast × List Token)
  | 0, _ => .error ParseError.Eof
  | f + 1, toks =>
    match parseMuldiv f toks with
    | .error e => .error e
    | .ok (e, rest) => parseAddsubLoop f e rest

def parseAddsubLoop : Nat → Ast → List Token → Except ParseError (Ast × List Token)
  | 0, _, _ => .error ParseError.Eof
  | _ + 1, acc, [] => .ok (acc, [])
  | f + 1, acc, t :: rest =>
    match t.value with
    | .Plus =>
      match parseMuldiv f rest with
      | .error e => .error e
      | .ok (r, rest2) =>
          parseAddsubLoop f (Ast.BinOp .Add acc r (Loc.mk acc.loc.fst r.loc.snd)) rest2
    | .Minus =>
      match parseMuldiv f rest with
      | .error e => .error e
      | .ok (r, rest2) =>
          parseAddsubLoop f (Ast.BinOp .Sub acc r (Loc.mk acc.loc.fst r.loc.snd)) rest2
    | _ => .ok (acc, t :: rest)

def parseMuldiv : Nat → List Token → Except ParseError (Ast × List Token)
  | 0, _ => .error ParseError.Eof
  | f + 1, toks =>
    match parseUnary f toks with
    | .error e => .error e
    | .ok (e, rest) => parseMuldivLoop f e rest

def parseMuldivLoop : Nat → Ast → List Token → Except ParseError (Ast × List Token)
  | 0, _, _ => .error ParseError.Eof
  | _ + 1, acc, [] => .ok (acc, [])
  | f + 1, acc, t :: rest =>
    match t.value with
    | .Asterisk =>
      match parseUnary f rest with
      | .error e => .error e
      | .ok (r, rest2) =>
          parseMuldivLoop f (Ast.BinOp .Mul acc r (Loc.mk acc.loc.fst r.loc.snd)) rest2
    | .Slash =>
      match parseUnary f rest with
      | .error e => .error e
      | .ok (r, rest2) =>
          parseMuldivLoop f (Ast.BinOp .Div acc r (Loc.mk acc.loc.fst r.loc.snd)) rest2
    | _ => .ok (acc, t :: rest)

def parseUnary : Nat → List Token → Except ParseError (Ast × List Token)
  | 0, _ => .error ParseError.Eof
  | f + 1, toks =>
    match toks with
    | t :: rest =>
      match t.value with
      | .Minus =>
        match parseUnary f rest with
        | .error e => .error e
        | .ok (e, rest2) => .ok (Ast.UniMinus e (Loc.mk t.loc.fst e.loc.snd), rest2)
      | _ => parsePrimary f toks
    | [] => parsePrimary f toks

def parsePrimary : Nat → List Token → Except ParseError (Ast × List Token)
  | 0, _ => .error ParseError.Eof
  | f + 1, toks =>
    match toks with
    | [] => .error ParseError.Eof
    | t :: rest =>
      match t.value with
      | .Number n => .ok (Ast.Num n t.loc, rest)
      | .LParen =>
        match parseAddsub f rest with
        | .error e => .error e
        | .ok (e, rest2) =>
          match rest2 with
          | t2 :: rest3 =>
            match t2.value with
            | .RParen => .ok (e, rest3)
            | _ => .error (ParseError.UnclosedOpenParen t)
          | [] => .error (ParseError.UnclosedOpenParen t)
      | _ => .error (ParseError.NotExpression t)

end

/-- Modelled from the spec: `parse(tokens) -> Result<Expression, ParseError>`
(§4.2) — parse a complete `expr`; if tokens remain afterwards, the first
remaining token yields `RedundantExpression`. -/
def parse (toks : List Token) : Except ParseError Ast :=
  match parseAddsub (4 * toks.length + 8) toks with
  | .error e => .error e
  | .ok (e, []) => .ok e
  | .ok (_, t :: _) => .error (ParseError.RedundantExpression t)

/-- `InterpreterError = Annot<InterpreterErrorKind>` with
`InterpreterErrorKind = {DivisionByZero}` — `error.rs` lines 133–138. -/
inductive InterpreterErrorKind where
  | DivisionByZero
  deriving Repr, DecidableEq

def InterpreterError := Annot InterpreterErrorKind
  deriving Repr, DecidableEq

/-- `impl fmt::Display for InterpreterError` — `error.rs` lines 140–147. -/
def InterpreterError.display (e : InterpreterError) : String :=
  match e.value with
  | .DivisionByZero => "division by zero"

/-- `InterpreterError::show_diagnostic` — `error.rs` lines 158–165: print the
error, then `print_annot` at the error's own stored location. -/
def InterpreterError.show_diagnostic (e : InterpreterError) (input : String) : List String :=
  e.display :: print_annot input e.loc

/-- Modelled from the spec: `evaluate(expr) -> Result<integer,
InterpreterError>` (§4.3) — Number yields its literal value, unary minus
negates, binary operators apply `+ - *`; for Div, if the right operand
evaluates to zero, fail with `DivisionByZero` at the division node's own
span. -/
def evaluate : Ast → Except InterpreterError Int
  | .Num n _ => .ok (Int.ofNat n)
  | .UniMinus e _ =>
    match evaluate e with
    | .error err => .error err
    | .ok v => .ok (-v)
  | .BinOp op l r loc =>
    match evaluate l with
    | .error err => .error err
    | .ok lv =>
      match evaluate r with
      | .error err => .error err
      | .ok rv =>
        match op with
        | .Add => .ok (lv + rv)
        | .Sub => .ok (lv - rv)
        | .Mul => .ok (lv * rv)
        | .Div =>
          if rv = 0 then .error (Annot.mk InterpreterErrorKind.DivisionByZero loc)
          else .ok (lv / rv)

/-- The whole pipeline on one input line: lex, parse, evaluate, with the two
error stages injected into the composite `Error` via its `From` conversions
and the interpreter error kept separate (spec §2, §3). -/
def run (input : String) : Except (Error ⊕ InterpreterError) Int :=
  match lex input with
  | .error e => .error (Sum.inl (Error.fromLexError e))
  | .ok toks =>
    match parse toks with
    | .error e => .error (Sum.inl (Error.fromParseError e))
    | .ok ast =>
      match evaluate ast with
      | .error e => .error (Sum.inr e)
      | .ok v => .ok v

/-! ### Equal-precedence runs

To state left-associativity for every run of equal-precedence operators, an
expression of shape `operand (('+'|'-') operand)*` is described by an
`Operand` followed by a list of `AddLink`s, where each `Operand` is itself a
muldiv run `n (('*'|'/') n)*`: a literal followed by a list of `MulLink`s.
This covers `+`, `-`, `*`, `/`, mixed runs at either precedence level, and
muldiv runs nested inside addsub runs. -/

/-- Modelled from the spec: one `('*'|'/') Number` step of an
equal-precedence run at the muldiv level (§4.2); `isDiv` false means `*`,
true means `/`. -/
structure MulLink where
  isDiv : Bool
  opLoc : Loc
  num : Nat
  numLoc : Loc

/-- The operator token of a muldiv link. -/
def MulLink.opToken (m : MulLink) : Token :=
  Annot.mk (if m.isDiv then TokenKind.Slash else TokenKind.Asterisk) m.opLoc

/-- The `BinOpKind` a muldiv link parses to. -/
def MulLink.binOp (m : MulLink) : BinOpKind :=
  if m.isDiv then BinOpKind.Div else BinOpKind.Mul

/-- The token stream `('*'|'/') n ...` of a list of muldiv links. -/
def mulLinksToks : List MulLink → List Token
  | [] => []
  | m :: ms => m.opToken :: Annot.mk (TokenKind.Number m.num) m.numLoc :: mulLinksToks ms

/-- An operand at the addsub level: a maximal muldiv run `n (('*'|'/') n)*`. -/
structure Operand where
  num : Nat
  numLoc : Loc
  links : List MulLink

/-- The token stream of an operand. -/
def Operand.toks (o : Operand) : List Token :=
  Annot.mk (TokenKind.Number o.num) o.numLoc :: mulLinksToks o.links

/-- One muldiv left-fold step (spec §4.2): merge into a `Mul`/`Div` node
spanning from the accumulated tree's left boundary to the literal's right
boundary. -/
def mulStep (a : Ast) (m : MulLink) : Ast :=
  Ast.BinOp m.binOp a (Ast.Num m.num m.numLoc) (Loc.mk a.loc.fst m.numLoc.snd)

/-- The left-leaning tree of an operand's muldiv run. -/
def Operand.tree (o : Operand) : Ast :=
  o.links.foldl mulStep (Ast.Num o.num o.numLoc)

/-- Modelled from the spec: one `('+'|'-') muldiv` step of an
equal-precedence run at the addsub level (§4.2); `isSub` false means `+`,
true means `-`. -/
structure AddLink where
  isSub : Bool
  opLoc : Loc
  operand : Operand

/-- The operator token of an addsub link. -/
def AddLink.opToken (a : AddLink) : Token :=
  Annot.mk (if a.isSub then TokenKind.Minus else TokenKind.Plus) a.opLoc

/-- The `BinOpKind` an addsub link parses to. -/
def AddLink.binOp (a : AddLink) : BinOpKind :=
  if a.isSub then BinOpKind.Sub else BinOpKind.Add

/-- The token stream `('+'|'-') operand ...` of a list of addsub links. -/
def addLinksToks : List AddLink → List Token
  | [] => []
  | a :: rest => a.opToken :: (a.operand.toks ++ addLinksToks rest)

/-- One addsub left-fold step (spec §4.2): merge into an `Add`/`Sub` node
spanning from the accumulated tree's left boundary to the operand tree's
right boundary. -/
def addStep (t : Ast) (a : AddLink) : Ast :=
  Ast.BinOp a.binOp t a.operand.tree (Loc.mk t.loc.fst a.operand.tree.loc.snd)

/-- The left-leaning tree of a whole expression `operand (('+'|'-')
operand)*`, folding both precedence levels left-to-right. -/
def exprTree (o : Operand) (links : List AddLink) : Ast :=
  links.foldl addStep o.tree

/-- Left-to-right integer value of an operand's muldiv run. -/
def Operand.evalInt (o : Operand) : Int :=
  o.links.foldl (fun v m => if m.isDiv then v / (m.num : Int) else v * (m.num : Int))
    (o.num : Int)

/-- One addsub step on values, left-to-right. -/
def AddLink.stepInt (v : Int) (a : AddLink) : Int :=
  if a.isSub then v - a.operand.evalInt else v + a.operand.evalInt

/-- No `/` link of the operand has the literal zero as divisor (division by
zero is the only runtime fault, spec §4.3). -/
def Operand.good (o : Operand) : Prop :=
  ∀ m ∈ o.links, m.isDiv = true → m.num ≠ 0

instance (o : Operand) : Decidable (Operand.good o) :=
  inferInstanceAs (Decidable (∀ m ∈ o.links, m.isDiv = true → m.num ≠ 0))

/-- The remaining tokens do not continue a muldiv run: empty, or a head
token other than `*` and `/`. -/
def muldivStops : List Token → Prop
  | [] => True
  | t :: _ => t.value ≠ TokenKind.Asterisk ∧ t.value ≠ TokenKind.Slash

/-- `unary` (hence `primary`) on a number token consumes just that token. -/
lemma parseUnary_num (f n : Nat) (loc : Loc) (rest : List Token) :
    parseUnary (f + 2) (Annot.mk (TokenKind.Number n) loc :: rest)
      = .ok (Ast.Num n loc, rest) := by
  simp [parseUnary, parsePrimary]

/-- The `muldiv` loop consumes a whole muldiv run, folding it left-to-right
onto the accumulated tree, and stops at the first token that is not `*` or
`/`. -/
lemma parseMuldivLoop_links (ms : List MulLink) :
    ∀ (g : Nat) (acc : Ast) (rest : List Token), muldivStops rest →
      parseMuldivLoop (4 * ms.length + g + 1) acc (mulLinksToks ms ++ rest)
        = .ok (ms.foldl mulStep acc, rest) := by
  induction ms with
  | nil =>
      intro g acc rest hrest
      cases rest with
      | nil => simp [mulLinksToks, parseMuldivLoop]
      | cons t ts =>
          obtain ⟨tv, tloc⟩ := t
          obtain ⟨h1, h2⟩ := hrest
          cases tv <;> simp_all [mulLinksToks, parseMuldivLoop]
  | cons m ms ih =>
      intro g acc rest hrest
      rw [show 4 * (List.length (m :: ms)) + g + 1 = ((4 * ms.length + g + 4) + 1) from by
        simp [List.length_cons]; ring]
      cases hm : m.isDiv <;>
      · simp only [mulLinksToks, MulLink.opToken, hm, if_true, if_false,
          Bool.false_eq_true, Bool.true_eq_false, List.cons_append, parseMuldivLoop]
        simp only [List.append_eq, List.cons_append]
        rw [parseUnary_num]
        dsimp only
        rw [show 4 * ms.length + g + 4 = 4 * ms.length + (g + 3) + 1 from by ring,
          List.foldl_cons]
        rw [show mulStep acc m
              = Ast.BinOp m.binOp acc (Ast.Num m.num m.numLoc)
                  (Loc.mk acc.loc.fst m.numLoc.snd) from rfl]
        rw [show m.binOp = (if m.isDiv then BinOpKind.Div else BinOpKind.Mul) from rfl, hm]
        exact ih (g + 3) _ rest hrest

/-- `muldiv` on an operand's token stream parses exactly the operand's
left-leaning tree, leaving the rest untouched. -/
lemma parseMuldiv_operand (o : Operand) (f : Nat) (rest : List Token)
    (hrest : muldivStops rest) :
    parseMuldiv (4 * o.links.length + f + 4) (o.toks ++ rest) = .ok (o.tree, rest) := by
  rw [show 4 * o.links.length + f + 4 = (4 * o.links.length + f + 3) + 1 from by ring]
  simp only [parseMuldiv, Operand.toks, List.cons_append]
  rw [show 4 * o.links.length + f + 3 = (4 * o.links.length + f + 1) + 2 from by ring]
  rw [parseUnary_num]
  dsimp only
  rw [show (4 * o.links.length + f + 1) + 2 = 4 * o.links.length + (f + 2) + 1 from by ring]
  rw [parseMuldivLoop_links o.links (f + 2) (Ast.Num o.num o.numLoc) rest hrest]
  rfl

/-- A list of addsub links never starts with `*` or `/`. -/
lemma muldivStops_addLinksToks (as : List AddLink) : muldivStops (addLinksToks as) := by
  cases as with
  | nil => trivial
  | cons a rest =>
      simp only [addLinksToks, muldivStops, AddLink.opToken]
      cases a.isSub <;> simp

/-- Fuel that suffices for the `addsub` loop to consume a list of addsub
links. -/
def addLinksFuel : List AddLink → Nat
  | [] => 0
  | a :: rest => 4 * a.operand.links.length + 8 + addLinksFuel rest

/-- The `addsub` loop consumes a whole list of addsub links, folding the
operands' trees left-to-right onto the accumulated tree. -/
lemma parseAddsubLoop_links (as : List AddLink) :
    ∀ (g : Nat) (acc : Ast),
      parseAddsubLoop (addLinksFuel as + g + 1) acc (addLinksToks as)
        = .ok (as.foldl addStep acc, []) := by
  induction as with
  | nil => intro g acc; simp [addLinksFuel, addLinksToks, parseAddsubLoop]
  | cons a rest ih =>
      intro g acc
      rw [show addLinksFuel (a :: rest) + g + 1
            = ((4 * a.operand.links.length + addLinksFuel rest + g + 8) + 1) from by
        simp [addLinksFuel]; ring]
      cases ha : a.isSub <;>
      · simp only [addLinksToks, AddLink.opToken, ha, if_true, if_false,
          Bool.false_eq_true, Bool.true_eq_false, parseAddsubLoop]
        rw [show 4 * a.operand.links.length + addLinksFuel rest + g + 8
              = 4 * a.operand.links.length + (addLinksFuel rest + g + 4) + 4 from by ring]
        rw [parseMuldiv_operand a.operand (addLinksFuel rest + g + 4) (addLinksToks rest)
          (muldivStops_addLinksToks rest)]
        dsimp only
        rw [show 4 * a.operand.links.length + (addLinksFuel rest + g + 4) + 4
              = addLinksFuel rest + (4 * a.operand.links.length + g + 7) + 1 from by ring,
          List.foldl_cons]
        rw [show addStep acc a
              = Ast.BinOp a.binOp acc a.operand.tree
                  (Loc.mk acc.loc.fst a.operand.tree.loc.snd) from rfl]
        rw [show a.binOp = (if a.isSub then BinOpKind.Sub else BinOpKind.Add) from rfl, ha]
        exact ih (4 * a.operand.links.length + g + 7) _

/-- `addsub` on a whole expression token stream parses exactly its
left-leaning tree and consumes every token. -/
lemma parseAddsub_expr (o : Operand) (as : List AddLink) (g : Nat) :
    parseAddsub (addLinksFuel as + 4 * o.links.length + g + 6)
        (o.toks ++ addLinksToks as)
      = .ok (exprTree o as, []) := by
  rw [show addLinksFuel as + 4 * o.links.length + g + 6
        = (addLinksFuel as + 4 * o.links.length + g + 5) + 1 from by ring]
  simp only [parseAddsub]
  rw [show addLinksFuel as + 4 * o.links.length + g + 5
        = 4 * o.links.length + (addLinksFuel as + g + 1) + 4 from by ring]
  rw [parseMuldiv_operand o (addLinksFuel as + g + 1) (addLinksToks as)
    (muldivStops_addLinksToks as)]
  dsimp only
  rw [show 4 * o.links.length + (addLinksFuel as + g + 1) + 4
        = addLinksFuel as + (4 * o.links.length + g + 4) + 1 from by ring]
  exact parseAddsubLoop_links as (4 * o.links.length + g + 4) o.tree

/-- Total muldiv-link count of a list of addsub links. -/
def addLinksMulLen : List AddLink → Nat
  | [] => 0
  | a :: rest => a.operand.links.length + addLinksMulLen rest

lemma mulLinksToks_length (ms : List MulLink) :
    (mulLinksToks ms).length = 2 * ms.length := by
  induction ms with
  | nil => rfl
  | cons m ms ih => simp [mulLinksToks, ih]; ring

lemma addLinksToks_length (as : List AddLink) :
    (addLinksToks as).length = 2 * as.length + 2 * addLinksMulLen as := by
  induction as with
  | nil => rfl
  | cons a rest ih =>
      simp [addLinksToks, Operand.toks, mulLinksToks_length, addLinksMulLen, ih]
      ring

lemma addLinksFuel_eq (as : List AddLink) :
    addLinksFuel as = 4 * addLinksMulLen as + 8 * as.length := by
  induction as with
  | nil => rfl
  | cons a rest ih => simp [addLinksFuel, addLinksMulLen, ih]; ring

/-- `parse` on a whole expression token stream yields exactly the
left-leaning tree of the left-to-right fold at both precedence levels. -/
lemma parse_expr (o : Operand) (as : List AddLink) :
    parse (o.toks ++ addLinksToks as) = .ok (exprTree o as) := by
  unfold parse
  rw [show 4 * (List.length (o.toks ++ addLinksToks as)) + 8
        = addLinksFuel as + 4 * o.links.length
            + (4 * o.links.length + 4 * addLinksMulLen as + 6) + 6 from by
    rw [List.length_append, addLinksToks_length, addLinksFuel_eq, Operand.toks,
      List.length_cons, mulLinksToks_length]
    ring]
  rw [parseAddsub_expr]

/-- Evaluating the left-leaning tree of a muldiv run computes the
left-to-right fold of `*` and `/`, provided no `/` link divides by zero. -/
lemma evaluate_mulFold (ms : List MulLink) :
    ∀ (acc : Ast) (v : Int), evaluate acc = .ok v →
      (∀ m ∈ ms, m.isDiv = true → m.num ≠ 0) →
      evaluate (ms.foldl mulStep acc)
        = .ok (ms.foldl
            (fun w m => if m.isDiv then w / (m.num : Int) else w * (m.num : Int)) v) := by
  induction ms with
  | nil => intro acc v h _; simpa using h
  | cons m rest ih =>
      intro acc v h hz
      rw [List.foldl_cons, List.foldl_cons]
      refine ih _ _ ?_ (fun m' hm' => hz m' (List.mem_cons_of_mem _ hm'))
      cases hm : m.isDiv
      · simp [mulStep, MulLink.binOp, evaluate, h, hm]
      · have hnz : m.num ≠ 0 := hz m (List.mem_cons_self _ _) hm
        simp [mulStep, MulLink.binOp, evaluate, h, hm, Int.natCast_eq_zero, hnz]

/-- Evaluating an operand's tree yields its left-to-right value. -/
lemma evaluate_operand (o : Operand) (ho : Operand.good o) :
    evaluate o.tree = .ok o.evalInt :=
  evaluate_mulFold o.links (Ast.Num o.num o.numLoc) (o.num : Int) rfl ho

/-- Evaluating the left-leaning tree of an addsub run computes the
left-to-right fold of `+` and `-` over the operands' values. -/
lemma evaluate_exprFold (as : List AddLink) :
    ∀ (acc : Ast) (v : Int), evaluate acc = .ok v →
      (∀ a ∈ as, Operand.good a.operand) →
      evaluate (as.foldl addStep acc) = .ok (as.foldl AddLink.stepInt v) := by
  induction as with
  | nil => intro acc v h _; simpa using h
  | cons a rest ih =>
      intro acc v h hg
      rw [List.foldl_cons, List.foldl_cons]
      refine ih _ _ ?_ (fun a' ha' => hg a' (List.mem_cons_of_mem _ ha'))
      have hop := evaluate_operand a.operand (hg a (List.mem_cons_self _ _))
      cases ha : a.isSub <;>
        simp [addStep, AddLink.binOp, AddLink.stepInt, evaluate, h, hop, ha]

/-! ### Auxiliary lemmas for traces and caret lines -/

/-- The `show_trace` loop prints exactly the `"caused by "`-prefixed messages
of the cause chain. -/
lemma showTraceCauses_eq_map :
    ∀ (e : DynErr), showTraceCauses e.src
      = (DynErr.causeChain e).map (fun m => "caused by " ++ m)
  | .mk _ none => by simp [DynErr.src, showTraceCauses, DynErr.causeChain]
  | .mk m (some (.mk m2 s2)) => by
      have ih := showTraceCauses_eq_map (.mk m2 s2)
      simp only [DynErr.src] at ih
      simp [showTraceCauses, DynErr.causeChain, DynErr.msg, DynErr.src, ih]

/-- Repeating a one-character string `n` times yields exactly the `n`-fold
repetition of that character. -/
lemma strRepeat_data_single (s : String) (c : Char) (hs : s.data = [c]) :
    ∀ n, (strRepeat s n).data = List.replicate n c
  | 0 => rfl
  | n + 1 => by
      simp [strRepeat, String.data_append, hs, strRepeat_data_single s c hs n,
        List.replicate_succ]

/-! ### The claims -/

/-- C1: for every composite `Error` and every input string, `show_diagnostic`
reports the `Location` stored in the error itself when the error is a lexer
error, and the `Location` of the variant's embedded token when it is a parser
error of kind `UnexpectedToken`, `NotExpression`, `NotOperator`, or
`UnclosedOpenParen`. -/
theorem claim_C1_diag_location_per_variant (input : String) (le : LexError) (t : Token) :
    (Error.Lexer le).diagnosticLoc input = le.loc ∧
    (Error.Parser (ParseError.UnexpectedToken t)).diagnosticLoc input = t.loc ∧
    (Error.Parser (ParseError.NotExpression t)).diagnosticLoc input = t.loc ∧
    (Error.Parser (ParseError.NotOperator t)).diagnosticLoc input = t.loc ∧
    (Error.Parser (ParseError.UnclosedOpenParen t)).diagnosticLoc input = t.loc ∧
    (Error.Lexer le).show_diagnostic input = le.display :: print_annot input le.loc ∧
    (Error.Parser (ParseError.UnexpectedToken t)).show_diagnostic input
      = (ParseError.UnexpectedToken t).display :: print_annot input t.loc ∧
    (Error.Parser (ParseError.NotExpression t)).show_diagnostic input
      = (ParseError.NotExpression t).display :: print_annot input t.loc ∧
    (Error.Parser (ParseError.NotOperator t)).show_diagnostic input
      = (ParseError.NotOperator t).display :: print_annot input t.loc ∧
    (Error.Parser (ParseError.UnclosedOpenParen t)).show_diagnostic input
      = (ParseError.UnclosedOpenParen t).display :: print_annot input t.loc :=
  ⟨rfl, rfl, rfl, rfl, rfl, rfl, rfl, rfl, rfl, rfl⟩

/-- C2: for every `RedundantExpression(token)` parse error and every input,
`show_diagnostic` reports the widened location from the excess token's start
offset to the byte length of the original input. -/
theorem claim_C2_redundant_widened_to_input_end (input : String) (t : Token) :
    (Error.Parser (ParseError.RedundantExpression t)).diagnosticLoc input
      = Loc.mk t.loc.fst input.utf8ByteSize ∧
    (Error.Parser (ParseError.RedundantExpression t)).show_diagnostic input
      = (ParseError.RedundantExpression t).display ::
          print_annot input (Loc.mk t.loc.fst input.utf8ByteSize) :=
  ⟨rfl, rfl⟩

/-- C3: for every input string of byte length `n`, `show_diagnostic` on the
parser error `UnexpectedEndOfInput` (`ParseError.Eof`) reports the
synthesized location `(n, n + 1)`, one position past the end of the input. -/
theorem claim_C3_eof_loc_one_past_end (input : String) :
    (Error.Parser ParseError.Eof).diagnosticLoc input
      = Loc.mk input.utf8ByteSize (input.utf8ByteSize + 1) ∧
    (Error.Parser ParseError.Eof).show_diagnostic input
      = ParseError.Eof.display ::
          print_annot input (Loc.mk input.utf8ByteSize (input.utf8ByteSize + 1)) :=
  ⟨rfl, rfl⟩

/-- C4: for every input and every reported `Location` `(start, end)` with
`start ≤ end`, the diagnostic consists of the error's message, then the
original input line, then a line of exactly `start` spaces followed by
exactly `end - start` carets. -/
theorem claim_C4_diag_message_input_caret_line (e : Error) (input : String)
    (h : (e.diagnosticLoc input).fst ≤ (e.diagnosticLoc input).snd) :
    ∃ caretLine : String,
      e.show_diagnostic input = [e.diagnosticMsg, input, caretLine] ∧
      caretLine.data =
        List.replicate (e.diagnosticLoc input).fst ' ' ++
          List.replicate ((e.diagnosticLoc input).snd - (e.diagnosticLoc input).fst) '^' ∧
      (e.diagnosticLoc input).fst
          + ((e.diagnosticLoc input).snd - (e.diagnosticLoc input).fst)
        = (e.diagnosticLoc input).snd := by
  refine ⟨strRepeat " " (e.diagnosticLoc input).fst ++
      strRepeat "^" ((e.diagnosticLoc input).snd - (e.diagnosticLoc input).fst),
    rfl, ?_, ?_⟩
  · rw [String.data_append, strRepeat_data_single " " ' ' rfl,
      strRepeat_data_single "^" '^' rfl]
  · omega

/-- Witness for C4 at the concrete error `Parser Eof` on the empty input:
reported location `(0, 1)`, so one leading space count of zero and one
caret. -/
theorem claim_C4_witness :
    ∃ caretLine : String,
      (Error.Parser ParseError.Eof).show_diagnostic ""
          = [(Error.Parser ParseError.Eof).diagnosticMsg, "", caretLine] ∧
      caretLine.data =
        List.replicate ((Error.Parser ParseError.Eof).diagnosticLoc "").fst ' ' ++
          List.replicate (((Error.Parser ParseError.Eof).diagnosticLoc "").snd
            - ((Error.Parser ParseError.Eof).diagnosticLoc "").fst) '^' ∧
      ((Error.Parser ParseError.Eof).diagnosticLoc "").fst
          + (((Error.Parser ParseError.Eof).diagnosticLoc "").snd
            - ((Error.Parser ParseError.Eof).diagnosticLoc "").fst)
        = ((Error.Parser ParseError.Eof).diagnosticLoc "").snd :=
  claim_C4_diag_message_input_caret_line (Error.Parser ParseError.Eof) "" (by decide)

/-- C5: `show_trace` prints the error's own message first, then one
`"caused by"` line per element of the causal chain, stopping exactly when the
chain runs out. -/
theorem claim_C5_show_trace_walks_cause_chain (e : DynErr) :
    show_trace e = e.msg :: (DynErr.causeChain e).map (fun m => "caused by " ++ m) := by
  rw [show show_trace e = e.msg :: showTraceCauses e.src from by
        cases e with | mk m s => rfl,
      showTraceCauses_eq_map e]

/-- C6: converting a `LexError` (resp. `ParseError`) into the composite
`Error` via the `From` conversions and then asking for the cause returns
exactly the original underlying error. -/
theorem claim_C6_from_then_source_roundtrip (le : LexError) (pe : ParseError) :
    (Error.fromLexError le).source = some (Sum.inl le) ∧
    (Error.fromParseError pe).source = some (Sum.inr pe) :=
  ⟨rfl, rfl⟩

/-- C7: evaluating a division whose right operand evaluates to zero (with an
evaluable left operand) fails with `DivisionByZero` located at the whole
division node's span; in particular `"1/0"` fails with `DivisionByZero` at
`(0, 3)`, the full span of the input. -/
theorem claim_C7_division_by_zero_whole_span (l r : Ast) (loc : Loc) (lv : Int)
    (hl : evaluate l = .ok lv) (hr : evaluate r = .ok 0) :
    evaluate (Ast.BinOp BinOpKind.Div l r loc)
        = .error (Annot.mk InterpreterErrorKind.DivisionByZero loc) ∧
    run "1/0" = .error (Sum.inr (Annot.mk InterpreterErrorKind.DivisionByZero (Loc.mk 0 3))) := by
  constructor
  · simp [evaluate, hl, hr]
  · rfl

/-- Witness for C7 at the concrete division node parsed from `"1/0"`. -/
theorem claim_C7_witness :
    evaluate (Ast.BinOp BinOpKind.Div (Ast.Num 1 (Loc.mk 0 1)) (Ast.Num 0 (Loc.mk 2 3))
        (Loc.mk 0 3))
        = .error (Annot.mk InterpreterErrorKind.DivisionByZero (Loc.mk 0 3)) ∧
    run "1/0" = .error (Sum.inr (Annot.mk InterpreterErrorKind.DivisionByZero (Loc.mk 0 3))) :=
  claim_C7_division_by_zero_whole_span (Ast.Num 1 (Loc.mk 0 1)) (Ast.Num 0 (Loc.mk 2 3))
    (Loc.mk 0 3) 1 rfl rfl

/-- C8: for every expression `operand (('+'|'-') operand)*` whose operands
are muldiv runs `n (('*'|'/') n)*`, the parser folds each equal-precedence
run left-to-right into the left-leaning tree, and (when no `/` link divides
by the literal zero) evaluation computes the left-to-right fold; in
particular `"8-3-2"` evaluates to `3` (not `7`), `"8/2/2"` to `2`,
`"8-3+2"` to `7` and `"2*3*4"` to `24`. -/
theorem claim_C8_left_associative_fold (o : Operand) (links : List AddLink) :
    parse (o.toks ++ addLinksToks links) = .ok (exprTree o links) ∧
    (Operand.good o → (∀ a ∈ links, Operand.good a.operand) →
      evaluate (exprTree o links) = .ok (links.foldl AddLink.stepInt o.evalInt)) ∧
    run "8-3-2" = .ok 3 ∧ run "8/2/2" = .ok 2 ∧ run "8-3+2" = .ok 7 ∧
    run "2*3*4" = .ok 24 := by
  refine ⟨parse_expr o links, fun ho hg => ?_, rfl, rfl, rfl, rfl⟩
  exact evaluate_exprFold links o.tree o.evalInt (evaluate_operand o ho) hg

/-- Witness for C8 at the concrete expression `8 / 2 - 3` (one `/` link in
the first operand, one `-` link after it), discharging both no-zero-divisor
hypotheses. -/
theorem claim_C8_witness :
    evaluate (exprTree (Operand.mk 8 (Loc.mk 0 1) [MulLink.mk true (Loc.mk 1 2) 2 (Loc.mk 2 3)])
        [AddLink.mk true (Loc.mk 3 4) (Operand.mk 3 (Loc.mk 4 5) [])])
      = .ok (List.foldl AddLink.stepInt
          (Operand.mk 8 (Loc.mk 0 1) [MulLink.mk true (Loc.mk 1 2) 2 (Loc.mk 2 3)]).evalInt
          [AddLink.mk true (Loc.mk 3 4) (Operand.mk 3 (Loc.mk 4 5) [])]) :=
  (claim_C8_left_associative_fold
      (Operand.mk 8 (Loc.mk 0 1) [MulLink.mk true (Loc.mk 1 2) 2 (Loc.mk 2 3)])
      [AddLink.mk true (Loc.mk 3 4) (Operand.mk 3 (Loc.mk 4 5) [])]).2.1
    (by decide) (by decide)

/-- C9: every composite `Error` renders as the constant `"parser error"`; the
wrapped error's own message appears only through the cause chain
(`show_trace`) or the diagnostic printer (`show_diagnostic`'s first line). -/
theorem claim_C9_composite_display_constant (le : LexError) (pe : ParseError) :
    (Error.Lexer le).display = "parser error" ∧
    (Error.Parser pe).display = "parser error" ∧
    show_trace (Error.Lexer le).toDyn = ["parser error", "caused by " ++ le.display] ∧
    show_trace (Error.Parser pe).toDyn = ["parser error", "caused by " ++ pe.display] ∧
    (Error.Lexer le).diagnosticMsg = le.display ∧
    (Error.Parser pe).diagnosticMsg = pe.display := by
  refine ⟨rfl, rfl, ?_, ?_, rfl, rfl⟩ <;>
    simp [show_trace, Error.toDyn, Error.source, Error.display, LexError.toDyn,
      ParseError.toDyn, showTraceCauses, DynErr.msg, DynErr.src]

/-- C10: the cause accessor of a composite `Error` is never `none`, so its
causal chain has length exactly one and `show_trace` prints exactly two
lines: the top-level message and one `"caused by"` line. -/
theorem claim_C10_source_always_some_trace_two_lines (e : Error) :
    e.source.isSome = true ∧
    show_trace e.toDyn = ["parser error", "caused by " ++ e.diagnosticMsg] ∧
    (show_trace e.toDyn).length = 2 := by
  cases e <;>
    simp [show_trace, Error.toDyn, Error.source, Error.display, Error.diagnosticMsg,
      LexError.toDyn, ParseError.toDyn, showTraceCauses, DynErr.msg, DynErr.src]

end LLParser
